import Mathlib

/-!
Verification of the cdata bridge module (`scripts/cdata_bridge.py`) and the
interval-thumbnail script (`generate_thumbnail.py`).

The bridge is embedded shallowly: Python dictionaries become association
lists with Python's in-place-update semantics, the mutable dictionaries a
fetch result's records point at become cells of an explicit heap, and the
external registry / source capabilities become function-valued parameters.
The `datetime.utcnow()` clock is a parameter `Nat → DateTime` indexed by the
number of reads performed so far, so "one timestamp read per record" is the
statement that the read counter advances by the record count.
-/

/-- Values stored in a Python dictionary: we need strings, integers and
lists (lists of symbols, feeds, series identifiers, years, scenarios). -/
inductive PyVal where
  | str (s : String)
  | int (n : Int)
  | list (xs : List PyVal)

/-- A Python dictionary, as an association list with unique keys by
construction. -/
abbrev PyDict := List (String × PyVal)

/-- The keys of a dictionary, in insertion order. -/
def dictKeys (d : PyDict) : List String := d.map Prod.fst

/-- Dictionary lookup (`d[k]` / `d.get(k)`): first matching key. -/
def dictLookup (d : PyDict) (k : String) : Option PyVal :=
  match d with
  | [] => none
  | (k', v) :: rest => if k' = k then some v else dictLookup rest k

/-- Dictionary update `d[k] = v`: replaces the value in place if the key is
present (keeping its position, as CPython does), appends otherwise. -/
def dictSet (d : PyDict) (k : String) (v : PyVal) : PyDict :=
  match d with
  | [] => [(k, v)]
  | (k', v') :: rest => if k' = k then (k', v) :: rest else (k', v') :: dictSet rest k v

/-- The merge `\x7b**a, **b\x7d`: start from `a`, write every entry of `b` in
order. -/
def dictMerge (a b : PyDict) : PyDict :=
  b.foldl (fun acc kv => dictSet acc kv.1 kv.2) a

theorem dictKeys_dictSet (d : PyDict) (k : String) (v : PyVal) :
    dictKeys (dictSet d k v) = if k ∈ dictKeys d then dictKeys d else dictKeys d ++ [k] := by
  induction d with
  | nil => simp [dictSet, dictKeys]
  | cons kv rest ih =>
    obtain ⟨k', v'⟩ := kv
    by_cases h : k' = k
    · subst h
      simp [dictSet, dictKeys]
    · have hne : k ≠ k' := Ne.symm h
      simp only [dictSet, if_neg h, dictKeys, List.map_cons, List.mem_cons, hne,
        false_or] at *
      rw [ih]
      by_cases hm : k ∈ List.map Prod.fst rest
      · simp [hm]
      · simp [hm]

theorem dictLookup_dictSet_self (d : PyDict) (k : String) (v : PyVal) :
    dictLookup (dictSet d k v) k = some v := by
  induction d with
  | nil => simp [dictSet, dictLookup]
  | cons kv rest ih =>
    obtain ⟨k', v'⟩ := kv
    by_cases h : k' = k
    · subst h; simp [dictSet, dictLookup]
    · simp [dictSet, dictLookup, h, ih]

theorem dictLookup_dictSet_ne (d : PyDict) (k k' : String) (v : PyVal) (h : k' ≠ k) :
    dictLookup (dictSet d k v) k' = dictLookup d k' := by
  have hne : ¬ k = k' := fun hh => h hh.symm
  induction d with
  | nil => simp [dictSet, dictLookup, hne]
  | cons kv rest ih =>
    obtain ⟨k0, v0⟩ := kv
    by_cases h0 : k0 = k
    · subst h0; simp [dictSet, dictLookup, hne]
    · simp [dictSet, dictLookup, h0, ih]

theorem dictLookup_dictMerge_not_mem (a b : PyDict) (k : String) (h : k ∉ dictKeys b) :
    dictLookup (dictMerge a b) k = dictLookup a k := by
  induction b generalizing a with
  | nil => simp [dictMerge]
  | cons kv rest ih =>
    obtain ⟨k0, v0⟩ := kv
    simp only [dictKeys, List.map_cons, List.mem_cons, not_or] at h
    show dictLookup (dictMerge (dictSet a k0 v0) rest) k = dictLookup a k
    rw [ih (dictSet a k0 v0) h.2, dictLookup_dictSet_ne _ _ _ _ h.1]

theorem dictLookup_dictMerge_mem (a b : PyDict) (k : String)
    (hnd : (dictKeys b).Nodup) (h : k ∈ dictKeys b) :
    dictLookup (dictMerge a b) k = dictLookup b k := by
  induction b generalizing a with
  | nil => simp [dictKeys] at h
  | cons kv rest ih =>
    obtain ⟨k0, v0⟩ := kv
    simp only [dictKeys, List.map_cons, List.nodup_cons] at hnd
    simp only [dictKeys, List.map_cons, List.mem_cons] at h
    show dictLookup (dictMerge (dictSet a k0 v0) rest) k = dictLookup ((k0, v0) :: rest) k
    rcases h with h | h
    · subst h
      rw [dictLookup_dictMerge_not_mem _ _ _ hnd.1, dictLookup_dictSet_self]
      simp [dictLookup]
    · have hk : k ≠ k0 := fun hh => hnd.1 (hh ▸ h)
      have hk0 : ¬ k0 = k := fun hh => hk hh.symm
      rw [ih (dictSet a k0 v0) hnd.2 h]
      simp [dictLookup, hk0]

/-- The mutable dictionaries reachable from a fetch result: a heap of cells,
addressed by position.  `record.data` is an address into this heap, so the
bridge's `.copy()` (fresh allocation) and in-place updates are explicit. -/
structure Heap where
  cells : List PyDict

/-- Read the dictionary stored at address `a` (empty for a dangling address,
which valid executions never produce). -/
def Heap.get (h : Heap) (a : Nat) : PyDict := h.cells.getD a []

/-- Allocate a fresh cell holding `d`; returns the new heap and the fresh
address. -/
def Heap.alloc (h : Heap) (d : PyDict) : Heap × Nat :=
  (⟨h.cells ++ [d]⟩, h.cells.length)

/-- Overwrite the cell at address `a`. -/
def Heap.write (h : Heap) (a : Nat) (d : PyDict) : Heap :=
  ⟨h.cells.set a d⟩

/-- The in-place dictionary update `heap[a][k] = v`. -/
def Heap.setKey (h : Heap) (a : Nat) (k : String) (v : PyVal) : Heap :=
  h.write a (dictSet (h.get a) k v)

theorem Heap.length_alloc (h : Heap) (d : PyDict) :
    (h.alloc d).1.cells.length = h.cells.length + 1 := by
  simp [Heap.alloc]

theorem Heap.get_alloc_lt (h : Heap) (d : PyDict) (a : Nat) (ha : a < h.cells.length) :
    (h.alloc d).1.get a = h.get a := by
  simp [Heap.alloc, Heap.get, List.getD, List.getElem?_append_left ha]

theorem Heap.get_alloc_self (h : Heap) (d : PyDict) :
    (h.alloc d).1.get (h.alloc d).2 = d := by
  simp [Heap.alloc, Heap.get, List.getD]

theorem Heap.length_write (h : Heap) (a : Nat) (d : PyDict) :
    (h.write a d).cells.length = h.cells.length := by
  simp [Heap.write]

theorem Heap.get_write_self (h : Heap) (a : Nat) (d : PyDict) (ha : a < h.cells.length) :
    (h.write a d).get a = d := by
  simp [Heap.write, Heap.get, List.getD, List.getElem?_set_self, ha]

theorem Heap.get_write_ne (h : Heap) (a a' : Nat) (d : PyDict) (hne : a' ≠ a) :
    (h.write a d).get a' = h.get a' := by
  simp [Heap.write, Heap.get, List.getD, List.getElem?_set_ne (Ne.symm hne)]

theorem Heap.length_setKey (h : Heap) (a : Nat) (k : String) (v : PyVal) :
    (h.setKey a k v).cells.length = h.cells.length := by
  simp [Heap.setKey, Heap.length_write]

theorem Heap.get_setKey_self (h : Heap) (a : Nat) (k : String) (v : PyVal)
    (ha : a < h.cells.length) :
    (h.setKey a k v).get a = dictSet (h.get a) k v := by
  simp [Heap.setKey, Heap.get_write_self _ _ _ ha]

theorem Heap.get_setKey_ne (h : Heap) (a a' : Nat) (k : String) (v : PyVal) (hne : a' ≠ a) :
    (h.setKey a k v).get a' = h.get a' := by
  simp [Heap.setKey, Heap.get_write_ne _ _ _ _ hne]

/-- A UTC wall-clock reading, as produced by `datetime.utcnow()` in the
external standard library.  Only the fields that `isoformat` prints. -/
structure DateTime where
  year : Nat
  month : Nat
  day : Nat
  hour : Nat
  minute : Nat
  second : Nat
  microsecond : Nat

/-- The field bounds the standard library guarantees for any constructed
datetime value. -/
def DateTime.Valid (d : DateTime) : Prop :=
  1 ≤ d.year ∧ d.year ≤ 9999 ∧ 1 ≤ d.month ∧ d.month ≤ 12 ∧ 1 ≤ d.day ∧ d.day ≤ 31 ∧
    d.hour ≤ 23 ∧ d.minute ≤ 59 ∧ d.second ≤ 59 ∧ d.microsecond ≤ 999999

instance (d : DateTime) : Decidable d.Valid := by
  unfold DateTime.Valid; infer_instance

/-- The character for the decimal digit `n % 10`. -/
def digitChar (n : Nat) : Char :=
  match n % 10 with
  | 0 => '0' | 1 => '1' | 2 => '2' | 3 => '3' | 4 => '4'
  | 5 => '5' | 6 => '6' | 7 => '7' | 8 => '8' | _ => '9'

/-- Zero-padded fixed-width decimal rendering, as `%0Nd` does for in-range
numbers. -/
def padDigits : Nat → Nat → List Char
  | 0, _ => []
  | w + 1, n => padDigits w (n / 10) ++ [digitChar n]

/-- Modelled from the spec: `datetime.isoformat()` from the external standard
library, which prints `YYYY-MM-DDTHH:MM:SS` and appends `.ffffff` exactly
when the microsecond field is nonzero. -/
def DateTime.isoformat (d : DateTime) : String :=
  String.mk (padDigits 4 d.year ++ '-' :: padDigits 2 d.month ++ '-' :: padDigits 2 d.day
    ++ 'T' :: padDigits 2 d.hour ++ ':' :: padDigits 2 d.minute ++ ':' :: padDigits 2 d.second
    ++ (if d.microsecond = 0 then [] else '.' :: padDigits 6 d.microsecond))

/-- Syntactic shape of an ISO-8601 UTC timestamp as the spec describes it:
`YYYY-MM-DDTHH:MM:SS` with an optional 6-digit fractional second part. -/
def isTimestampChars (cs : List Char) : Bool :=
  match cs with
  | y1 :: y2 :: y3 :: y4 :: sep1 :: m1 :: m2 :: sep2 :: d1 :: d2 :: sept :: hh1 :: hh2 ::
      sep3 :: n1 :: n2 :: sep4 :: s1 :: s2 :: rest =>
    ([y1, y2, y3, y4, m1, m2, d1, d2, hh1, hh2, n1, n2, s1, s2].all Char.isDigit)
      && sep1 == '-' && sep2 == '-' && sept == 'T' && sep3 == ':' && sep4 == ':'
      && (match rest with
          | [] => true
          | dot :: us => dot == '.' && us.length == 6 && us.all Char.isDigit)
  | _ => false

/-- A string is a syntactically valid UTC timestamp when its characters have
the ISO-8601 shape above. -/
def validUTCTimestamp (s : String) : Bool :=
  isTimestampChars s.data

theorem digitChar_isDigit (n : Nat) : (digitChar n).isDigit = true := by
  unfold digitChar
  split <;> decide

theorem padDigits_all_isDigit (w n : Nat) : (padDigits w n).all Char.isDigit = true := by
  induction w generalizing n with
  | zero => simp [padDigits]
  | succ w ih => simp [padDigits, ih, digitChar_isDigit]

theorem padDigits_length (w n : Nat) : (padDigits w n).length = w := by
  induction w generalizing n with
  | zero => simp [padDigits]
  | succ w ih => simp [padDigits, ih]

theorem isoformat_validUTCTimestamp (d : DateTime) :
    validUTCTimestamp d.isoformat = true := by
  obtain ⟨y, mo, dd, hh, mi, ss, us⟩ := d
  show isTimestampChars (padDigits 4 y ++ '-' :: padDigits 2 mo ++ '-' :: padDigits 2 dd
    ++ 'T' :: padDigits 2 hh ++ ':' :: padDigits 2 mi ++ ':' :: padDigits 2 ss
    ++ (if us = 0 then [] else '.' :: padDigits 6 us)) = true
  show isTimestampChars (digitChar (y / 10 / 10 / 10) :: digitChar (y / 10 / 10)
    :: digitChar (y / 10) :: digitChar y :: '-' :: digitChar (mo / 10) :: digitChar mo
    :: '-' :: digitChar (dd / 10) :: digitChar dd :: 'T' :: digitChar (hh / 10)
    :: digitChar hh :: ':' :: digitChar (mi / 10) :: digitChar mi :: ':'
    :: digitChar (ss / 10) :: digitChar ss
    :: (if us = 0 then [] else '.' :: padDigits 6 us)) = true
  by_cases h : us = 0
  · simp [h, isTimestampChars, digitChar_isDigit]
  · simp [h, isTimestampChars, digitChar_isDigit, padDigits_all_isDigit, padDigits_length]

/-- The configuration object built by `_create_source_config`
(`cdata.config.schema.SourceConfig`). -/
structure SourceConfig where
  id : String
  name : String
  type : String
  config : PyDict
  primary_keys : List String
  incremental : Bool

/-- One fetched record: its `data` field is the address of its dictionary in
the heap. -/
structure Record where
  data : Nat
deriving DecidableEq

instance : Inhabited Record := ⟨⟨0⟩⟩

/-- The fetch framework's result object: an ordered sequence of records. -/
structure FetchResult where
  records : List Record

/-- An instantiated fetch source: its `fetch` operation receives the merged
keyword parameters and the current heap, and either fails or returns a
result together with the (possibly extended) heap its records live in. -/
structure Source where
  fetch : PyDict → Heap → Except String (FetchResult × Heap)

/-- The external registry capability: maps a configuration object to a
runnable source, or fails. -/
structure Registry where
  create_source : SourceConfig → Except String Source

/-- The tabular result (`pandas.DataFrame`): the materialized rows plus the
column list, the deduplicated union of the rows' keys. -/
structure DataFrame where
  columns : List String
  rows : List PyDict

/-- `pd.DataFrame()`: the empty table. -/
def DataFrame.empty : DataFrame := ⟨[], []⟩

/-- `pd.DataFrame(data_rows)`: one table row per dictionary, columns the
union of the dictionaries' keys. -/
def DataFrame.ofRows (rows : List PyDict) : DataFrame :=
  ⟨(rows.flatMap dictKeys).dedup, rows⟩

/-- `CDataBridge._create_source_config`: builds the configuration object,
using the source identifier for both `id` and `name`. -/
def _create_source_config (source_id source_type : String) (config : PyDict)
    (primary_keys : List String) (incremental : Bool) : SourceConfig :=
  { id := source_id, name := source_id, type := source_type, config := config,
    primary_keys := primary_keys, incremental := incremental }

/-- The loop of `_fetch_with_config` lines 107-112: for each record, copy its
dictionary into a fresh cell, add the two metadata fields in place, and
append the fresh address to `data_rows`.  `t` counts `datetime.utcnow()`
reads. -/
def buildRowsLoop (source_id : String) (clock : Nat → DateTime) :
    List Record → Heap → Nat → List Nat → Heap × Nat × List Nat
  | [], h, t, acc => (h, t, acc)
  | r :: rs, h, t, acc =>
    let copied := h.alloc (h.get r.data)
    let h2 := copied.1.setKey copied.2 "_source_id" (.str source_id)
    let h3 := h2.setKey copied.2 "_fetched_at" (.str (clock t).isoformat)
    buildRowsLoop source_id clock rs h3 (t + 1) (acc ++ [copied.2])

/-- Lines 102-114 of `_fetch_with_config`: an empty records sequence gives
`pd.DataFrame()`, otherwise the metadata loop runs and the collected rows
are materialized into a table. -/
def resultToDataFrame (source_id : String) (clock : Nat → DateTime)
    (result : FetchResult) (h : Heap) (t : Nat) : DataFrame × Heap × Nat :=
  if result.records.isEmpty then (DataFrame.empty, h, t)
  else
    let out := buildRowsLoop source_id clock result.records h t []
    (DataFrame.ofRows (out.2.2.map out.1.get), out.1, out.2.1)

/-- `CDataBridge._fetch_with_config`: build the configuration object, ask the
registry for a source, merge the configuration with the per-call keyword
parameters, fetch, and convert the result.  The registry and the clock are
the external capabilities the bridge calls into; `h` is the heap and `t` the
clock-read counter. -/
def _fetch_with_config (registry : Registry) (clock : Nat → DateTime)
    (source_id source_type : String) (config : PyDict) (primary_keys : List String)
    (incremental : Bool) (fetch_kwargs : PyDict) (h : Heap) (t : Nat) :
    Except String (DataFrame × Heap × Nat) :=
  let source_config := _create_source_config source_id source_type config primary_keys incremental
  match registry.create_source source_config with
  | .error e => .error e
  | .ok source =>
    let fetch_params := dictMerge config fetch_kwargs
    match source.fetch fetch_params h with
    | .error e => .error e
    | .ok (result, h1) => .ok (resultToDataFrame source_id clock result h1 t)

/-- `CDataBridge.fetch_yfinance_data`. -/
def fetch_yfinance_data (registry : Registry) (clock : Nat → DateTime)
    (source_id : String) (symbols : List PyVal) (period interval : String)
    (h : Heap) (t : Nat) : Except String (DataFrame × Heap × Nat) :=
  _fetch_with_config registry clock source_id "yfinance"
    [("symbols", .list symbols), ("period", .str period), ("interval", .str interval)]
    ["symbol", "date"] true [] h t

/-- `CDataBridge.fetch_rss_data`. -/
def fetch_rss_data (registry : Registry) (clock : Nat → DateTime)
    (source_id : String) (feeds : List PyVal) (h : Heap) (t : Nat) :
    Except String (DataFrame × Heap × Nat) :=
  _fetch_with_config registry clock source_id "rss" [("feeds", .list feeds)]
    ["id"] false [] h t

/-- `CDataBridge.fetch_fred_data`. -/
def fetch_fred_data (registry : Registry) (clock : Nat → DateTime)
    (source_id : String) (series : List PyVal) (h : Heap) (t : Nat) :
    Except String (DataFrame × Heap × Nat) :=
  _fetch_with_config registry clock source_id "fred" [("series", .list series)]
    ["series_id", "date"] true [] h t

/-- `CDataBridge.fetch_bls_data`. -/
def fetch_bls_data (registry : Registry) (clock : Nat → DateTime)
    (source_id : String) (series : List PyVal) (h : Heap) (t : Nat) :
    Except String (DataFrame × Heap × Nat) :=
  _fetch_with_config registry clock source_id "bls" [("series", .list series)]
    ["series_id", "date"] true [] h t

/-- `CDataBridge.fetch_fed_stress_data`. -/
def fetch_fed_stress_data (registry : Registry) (clock : Nat → DateTime)
    (source_id : String) (years : List PyVal) (scenarios : List PyVal)
    (h : Heap) (t : Nat) : Except String (DataFrame × Heap × Nat) :=
  _fetch_with_config registry clock source_id "fed_stress"
    [("years", .list years), ("scenarios", .list scenarios)]
    ["year", "table", "date"] false [] h t

/-- The dictionary contents of one output row: the record's fields with the
two metadata fields written on top. -/
def buildRow (source_id ts : String) (d : PyDict) : PyDict :=
  dictSet (dictSet d "_source_id" (.str source_id)) "_fetched_at" (.str ts)

/-- Functional description of the metadata loop: one row per record, in
record order, consuming one clock reading per record. -/
def buildRowsPure (source_id : String) (clock : Nat → DateTime) (h : Heap) :
    List Record → Nat → List PyDict
  | [], _ => []
  | r :: rs, t => buildRow source_id (clock t).isoformat (h.get r.data)
      :: buildRowsPure source_id clock h rs (t + 1)

theorem buildRowsPure_length (source_id : String) (clock : Nat → DateTime) (h : Heap)
    (rs : List Record) (t : Nat) :
    (buildRowsPure source_id clock h rs t).length = rs.length := by
  induction rs generalizing t with
  | nil => simp [buildRowsPure]
  | cons r rs ih => simp [buildRowsPure, ih]

theorem buildRowsPure_congr (source_id : String) (clock : Nat → DateTime) (h h' : Heap)
    (rs : List Record) (t : Nat)
    (hlen : ∀ r ∈ rs, r.data < h.cells.length)
    (hag : ∀ a, a < h.cells.length → h'.get a = h.get a) :
    buildRowsPure source_id clock h' rs t = buildRowsPure source_id clock h rs t := by
  induction rs generalizing t with
  | nil => simp [buildRowsPure]
  | cons r rs ih =>
    have hr : r.data < h.cells.length := hlen r (by simp)
    have hrest : ∀ r' ∈ rs, r'.data < h.cells.length := fun r' hm => hlen r' (by simp [hm])
    simp [buildRowsPure, hag r.data hr, ih (t + 1) hrest]

theorem buildRowsPure_getD (source_id : String) (clock : Nat → DateTime) (h : Heap) :
    ∀ (rs : List Record) (t i : Nat), i < rs.length →
    (buildRowsPure source_id clock h rs t).getD i []
      = buildRow source_id (clock (t + i)).isoformat (h.get (rs.getD i default).data) := by
  intro rs
  induction rs with
  | nil => intro t i hi; simp at hi
  | cons r rs ih =>
    intro t i hi
    cases i with
    | zero => simp [buildRowsPure, List.getD]
    | succ i =>
      have hi' : i < rs.length := by simpa using hi
      have harith : t + (i + 1) = (t + 1) + i := by omega
      simpa [buildRowsPure, List.getD, harith] using ih (t + 1) i hi'

theorem buildRowsLoop_spec (source_id : String) (clock : Nat → DateTime) :
    ∀ (rs : List Record) (h : Heap) (t : Nat) (acc : List Nat),
    (∀ r ∈ rs, r.data < h.cells.length) →
    (buildRowsLoop source_id clock rs h t acc).2.1 = t + rs.length
    ∧ (buildRowsLoop source_id clock rs h t acc).1.cells.length = h.cells.length + rs.length
    ∧ (∀ a, a < h.cells.length → (buildRowsLoop source_id clock rs h t acc).1.get a = h.get a)
    ∧ (buildRowsLoop source_id clock rs h t acc).2.2 = acc ++ List.range' h.cells.length rs.length
    ∧ (List.range' h.cells.length rs.length).map (buildRowsLoop source_id clock rs h t acc).1.get
        = buildRowsPure source_id clock h rs t := by
  intro rs
  induction rs with
  | nil =>
    intro h t acc _
    refine ⟨by simp [buildRowsLoop], by simp [buildRowsLoop], ?_, by simp [buildRowsLoop], ?_⟩
    · intro a _; rfl
    · simp [buildRowsLoop, buildRowsPure]
  | cons r rs ih =>
    intro h t acc hval
    have hr : r.data < h.cells.length := hval r (by simp)
    have hval' : ∀ r' ∈ rs, r'.data < h.cells.length := fun r' hm => hval r' (by simp [hm])
    set a := h.cells.length with ha
    set h1 := (h.alloc (h.get r.data)).1 with hh1
    set h2 := h1.setKey a "_source_id" (.str source_id) with hh2
    set h3 := h2.setKey a "_fetched_at" (.str (clock t).isoformat) with hh3
    have hlen1 : h1.cells.length = h.cells.length + 1 := Heap.length_alloc h _
    have hlen2 : h2.cells.length = h.cells.length + 1 := by
      rw [hh2, Heap.length_setKey, hlen1]
    have hlen3 : h3.cells.length = h.cells.length + 1 := by
      rw [hh3, Heap.length_setKey, hlen2]
    have hframe3 : ∀ a', a' < h.cells.length → h3.get a' = h.get a' := by
      intro a' ha'
      have hne : a' ≠ a := Nat.ne_of_lt ha'
      rw [hh3, Heap.get_setKey_ne _ _ _ _ _ hne, hh2, Heap.get_setKey_ne _ _ _ _ _ hne,
        hh1, Heap.get_alloc_lt _ _ _ ha']
    have hcell : h3.get a = buildRow source_id (clock t).isoformat (h.get r.data) := by
      have h1a : h1.get a = h.get r.data := Heap.get_alloc_self h _
      have h2a : h2.get a = dictSet (h.get r.data) "_source_id" (.str source_id) := by
        rw [hh2, Heap.get_setKey_self _ _ _ _ (by omega), h1a]
      rw [hh3, Heap.get_setKey_self _ _ _ _ (by omega), h2a, buildRow]
    have hval3 : ∀ r' ∈ rs, r'.data < h3.cells.length := by
      intro r' hm; have := hval' r' hm; omega
    have hstep : buildRowsLoop source_id clock (r :: rs) h t acc
        = buildRowsLoop source_id clock rs h3 (t + 1) (acc ++ [a]) := rfl
    obtain ⟨iht, ihlen, ihframe, ihaddrs, ihrows⟩ := ih h3 (t + 1) (acc ++ [a]) hval3
    rw [hstep]
    refine ⟨by rw [iht]; simp; omega, by rw [ihlen, hlen3]; simp; omega, ?_, ?_, ?_⟩
    · intro a' ha'
      rw [ihframe a' (by omega), hframe3 a' ha']
    · rw [ihaddrs, hlen3, List.append_assoc, ha]
      simp [List.range'_succ]
    · simp only [List.length_cons]
      rw [List.range'_succ, List.map_cons]
      have hfinal_a : (buildRowsLoop source_id clock rs h3 (t + 1) (acc ++ [a])).1.get a
          = buildRow source_id (clock t).isoformat (h.get r.data) := by
        rw [ihframe a (by omega), hcell]
      have hrange : List.range' (a + 1) rs.length
          = List.range' h3.cells.length rs.length := by rw [hlen3]
      rw [hfinal_a, hrange, ihrows,
        buildRowsPure_congr source_id clock h h3 rs (t + 1) hval' hframe3]
      rfl

/-- A bridge instance (`CDataBridge.__init__` sets `_registry = None`).  The
allocation identifier `oid` models Python object identity; `_registry` is
the lazily cached reference to the external registry. -/
structure CDataBridge where
  oid : Nat
  _registry : Option Nat
deriving DecidableEq

/-- The module-level state: the global `_bridge` variable plus an allocation
counter giving fresh object identities. -/
structure PState where
  bridge : Option CDataBridge
  nextOid : Nat
deriving DecidableEq

/-- The module state at import time: `_bridge = None`. -/
def PState.initial : PState := ⟨none, 0⟩

/-- `get_bridge`: create the global instance if absent, then return it. -/
def get_bridge (s : PState) : CDataBridge × PState :=
  match s.bridge with
  | some b => (b, s)
  | none =>
    let b : CDataBridge := ⟨s.nextOid, none⟩
    (b, ⟨some b, s.nextOid + 1⟩)

/-- The results of `n` successive `get_bridge` calls, threading the module
state. -/
def runGetBridge : Nat → PState → List CDataBridge × PState
  | 0, s => ([], s)
  | n + 1, s =>
    let out := get_bridge s
    let rest := runGetBridge n out.2
    (out.1 :: rest.1, rest.2)

theorem runGetBridge_cached (n : Nat) (s : PState) (b : CDataBridge)
    (hs : s.bridge = some b) :
    runGetBridge n s = (List.replicate n b, s) := by
  induction n with
  | zero => simp [runGetBridge]
  | succ n ih => simp [runGetBridge, get_bridge, hs, ih, List.replicate_succ]

/-- Parameters of the thumbnail script: the base frequency and the partial
numbers `np.arange(1, 31)`.  Arithmetic is over `ℚ`; on the script's inputs
the binary64 computation agrees with the exact one at every cutoff
comparison. -/
def f0 : ℚ := 200

/-- The partial indices 1..30. -/
def partials : List ℚ := (List.range 30).map (fun (i : ℕ) => ((i : ℚ) + 1))

/-- The four intervals of the script, as written: name, frequency multiplier,
plot color. -/
def intervals : List (String × ℚ × String) :=
  [("Major third (5:4)", 5 / 4, "#ff6b6b"),
   ("Perfect fourth (4:3)", 4 / 3, "#ffb74d"),
   ("Perfect fifth (3:2)", 3 / 2, "#81c784"),
   ("Octave (2:1)", 2, "#64b5f6")]

/-- The display order: `intervals = list(reversed(intervals))`. -/
def intervals_display : List (String × ℚ × String) := intervals.reverse

/-- All pairwise absolute differences `np.abs(fA - fB).flatten()`: the outer
index runs over the first partial set (scaled by 1), the inner over the
second (scaled by the interval multiplier), row-major as `flatten` does. -/
def delta_vals_all (mult : ℚ) : List ℚ :=
  partials.flatMap (fun p => partials.map (fun q => |p * f0 - q * f0 * mult|))

/-- The filtered differences `delta_vals[delta_vals <= 200]`. -/
def delta_vals (mult : ℚ) : List ℚ :=
  (delta_vals_all mult).filter (fun v => decide (v ≤ 200))

/-- The curve `y = kde(x) * len(delta_vals)`: the density estimate scaled by
the retained sample count.  The kernel density estimator itself is the
external `gaussian_kde`, abstracted as `kdefun`. -/
def interaction_density (kdefun : ℚ → ℚ) (mult : ℚ) (x : ℚ) : ℚ :=
  kdefun x * ((delta_vals mult).length : ℚ)

theorem fetch_with_config_ok (registry : Registry) (clock : Nat → DateTime)
    (source_id source_type : String) (config : PyDict) (primary_keys : List String)
    (incremental : Bool) (fetch_kwargs : PyDict) (h : Heap) (t : Nat)
    (source : Source) (result : FetchResult) (h1 : Heap)
    (hreg : registry.create_source
      (_create_source_config source_id source_type config primary_keys incremental) = .ok source)
    (hfetch : source.fetch (dictMerge config fetch_kwargs) h = .ok (result, h1)) :
    _fetch_with_config registry clock source_id source_type config primary_keys incremental
        fetch_kwargs h t
      = .ok (resultToDataFrame source_id clock result h1 t) := by
  simp only [_fetch_with_config, hreg, hfetch]

/-- A constant test clock for the concrete instances below. -/
def wClock : Nat → DateTime := fun _ => ⟨2024, 1, 2, 3, 4, 5, 6⟩

/-- A source whose fetch returns no records. -/
def wSourceEmpty : Source := ⟨fun _ h => .ok (⟨[]⟩, h)⟩

/-- A registry dispensing `wSourceEmpty`. -/
def wRegistryEmpty : Registry := ⟨fun _ => .ok wSourceEmpty⟩

/-- A source whose fetch returns one record stored at heap address 0. -/
def wSourceOne : Source := ⟨fun _ h => .ok (⟨[⟨0⟩]⟩, h)⟩

/-- A registry dispensing `wSourceOne`. -/
def wRegistryOne : Registry := ⟨fun _ => .ok wSourceOne⟩

/-- A one-cell heap whose record has one ordinary field. -/
def wHeapOne : Heap := ⟨[[("a", PyVal.int 1)]]⟩

/-- A one-cell heap whose record already carries a `_source_id` field. -/
def cHeap : Heap := ⟨[[("a", PyVal.int 1), ("_source_id", PyVal.str "old")]]⟩

/-- C1: for every source kind, if the fetch result's records sequence is
empty then the generic fetch path returns the empty table (zero rows) and
no exception is raised. -/
theorem c1_empty_records_empty_table (registry : Registry) (clock : Nat → DateTime)
    (source_id source_type : String) (config : PyDict) (primary_keys : List String)
    (incremental : Bool) (fetch_kwargs : PyDict) (h : Heap) (t : Nat)
    (source : Source) (result : FetchResult) (h1 : Heap)
    (hreg : registry.create_source
      (_create_source_config source_id source_type config primary_keys incremental) = .ok source)
    (hfetch : source.fetch (dictMerge config fetch_kwargs) h = .ok (result, h1))
    (hempty : result.records = []) :
    _fetch_with_config registry clock source_id source_type config primary_keys incremental
        fetch_kwargs h t = .ok (DataFrame.empty, h1, t)
    ∧ DataFrame.empty.rows.length = 0 := by
  refine ⟨?_, rfl⟩
  rw [fetch_with_config_ok registry clock source_id source_type config primary_keys incremental
    fetch_kwargs h t source result h1 hreg hfetch]
  simp [resultToDataFrame, hempty]

theorem c1_witness :
    _fetch_with_config wRegistryEmpty wClock "sid" "yfinance" [] [] false [] ⟨[]⟩ 0
      = .ok (DataFrame.empty, ⟨[]⟩, 0)
    ∧ DataFrame.empty.rows.length = 0 :=
  c1_empty_records_empty_table wRegistryEmpty wClock "sid" "yfinance" [] [] false [] ⟨[]⟩ 0
    wSourceEmpty ⟨[]⟩ ⟨[]⟩ rfl rfl rfl

/-- C3: the parameter mapping handed to the source's fetch operation is the
merge of the base configuration with the per-call keyword parameters; on a
key collision the per-call value wins, and keys only in the base
configuration keep their configured value. -/
theorem c3_merge_precedence (registry : Registry) (clock : Nat → DateTime)
    (source_id source_type : String) (config : PyDict) (primary_keys : List String)
    (incremental : Bool) (fetch_kwargs : PyDict) (h : Heap) (t : Nat) (source : Source)
    (hreg : registry.create_source
      (_create_source_config source_id source_type config primary_keys incremental) = .ok source)
    (hnodup : (dictKeys fetch_kwargs).Nodup) :
    (_fetch_with_config registry clock source_id source_type config primary_keys incremental
        fetch_kwargs h t
      = match source.fetch (dictMerge config fetch_kwargs) h with
        | .error e => .error e
        | .ok (result, h1) => .ok (resultToDataFrame source_id clock result h1 t))
    ∧ (∀ k, k ∈ dictKeys config → k ∈ dictKeys fetch_kwargs →
        dictLookup (dictMerge config fetch_kwargs) k = dictLookup fetch_kwargs k)
    ∧ (∀ k, k ∉ dictKeys fetch_kwargs →
        dictLookup (dictMerge config fetch_kwargs) k = dictLookup config k) := by
  refine ⟨?_, ?_, ?_⟩
  · simp only [_fetch_with_config, hreg]
  · intro k _ hk
    exact dictLookup_dictMerge_mem config fetch_kwargs k hnodup hk
  · intro k hk
    exact dictLookup_dictMerge_not_mem config fetch_kwargs k hk

theorem c3_witness :
    dictLookup (dictMerge [("a", PyVal.int 1), ("b", PyVal.int 2)] [("b", PyVal.int 3)]) "b"
      = dictLookup [("b", PyVal.int 3)] "b" :=
  (c3_merge_precedence wRegistryEmpty wClock "sid" "fred"
      [("a", PyVal.int 1), ("b", PyVal.int 2)] [] false [("b", PyVal.int 3)] ⟨[]⟩ 0
      wSourceEmpty rfl (by decide)).2.1 "b" (by decide) (by decide)

/-- C4: every kind-specific convenience function returns exactly what the
generic fetch path returns for the corresponding fixed source-kind tag and
the parameter mapping built from its arguments. -/
theorem c4_wrappers_forward (registry : Registry) (clock : Nat → DateTime)
    (source_id : String) (symbols : List PyVal) (period interval : String)
    (feeds series years scenarios : List PyVal) (h : Heap) (t : Nat) :
    fetch_yfinance_data registry clock source_id symbols period interval h t
      = _fetch_with_config registry clock source_id "yfinance"
          [("symbols", .list symbols), ("period", .str period), ("interval", .str interval)]
          ["symbol", "date"] true [] h t
    ∧ fetch_rss_data registry clock source_id feeds h t
      = _fetch_with_config registry clock source_id "rss" [("feeds", .list feeds)]
          ["id"] false [] h t
    ∧ fetch_fred_data registry clock source_id series h t
      = _fetch_with_config registry clock source_id "fred" [("series", .list series)]
          ["series_id", "date"] true [] h t
    ∧ fetch_bls_data registry clock source_id series h t
      = _fetch_with_config registry clock source_id "bls" [("series", .list series)]
          ["series_id", "date"] true [] h t
    ∧ fetch_fed_stress_data registry clock source_id years scenarios h t
      = _fetch_with_config registry clock source_id "fed_stress"
          [("years", .list years), ("scenarios", .list scenarios)]
          ["year", "table", "date"] false [] h t :=
  ⟨rfl, rfl, rfl, rfl, rfl⟩

/-- C5: starting from the import-time module state, every one of `n + 1`
successive `get_bridge` calls returns the very instance the first call
returned, and the module state after any positive number of calls is the
state left by the first call (the cached `_bridge` is never replaced). -/
theorem c5_singleton_accessor (n : Nat) :
    (runGetBridge (n + 1) PState.initial).1
      = List.replicate (n + 1) (get_bridge PState.initial).1
    ∧ (runGetBridge (n + 1) PState.initial).2 = (get_bridge PState.initial).2 := by
  have hfirst : get_bridge PState.initial
      = (⟨0, none⟩, ⟨some ⟨0, none⟩, 1⟩) := rfl
  have hcached := runGetBridge_cached n ⟨some ⟨0, none⟩, 1⟩ ⟨0, none⟩ rfl
  constructor
  · simp [runGetBridge, hfirst, hcached, List.replicate_succ]
  · simp [runGetBridge, hfirst, hcached]

/-- C6: the generic fetch path raises an exception exactly when the
registry's `create_source` or the source's fetch does, and that exception
reaches the caller unmodified. -/
theorem c6_error_propagation (registry : Registry) (clock : Nat → DateTime)
    (source_id source_type : String) (config : PyDict) (primary_keys : List String)
    (incremental : Bool) (fetch_kwargs : PyDict) (h : Heap) (t : Nat) (e : String) :
    (_fetch_with_config registry clock source_id source_type config primary_keys incremental
        fetch_kwargs h t = .error e)
    ↔ (registry.create_source
        (_create_source_config source_id source_type config primary_keys incremental) = .error e
      ∨ ∃ source, registry.create_source
          (_create_source_config source_id source_type config primary_keys incremental)
            = .ok source
          ∧ source.fetch (dictMerge config fetch_kwargs) h = .error e) := by
  cases hreg : registry.create_source
      (_create_source_config source_id source_type config primary_keys incremental) with
  | error e' =>
    simp only [_fetch_with_config, hreg]
    constructor
    · intro he
      exact Or.inl (by simpa using he)
    · rintro (he | ⟨source, hs, _⟩)
      · simpa using he
      · exact absurd hs (by simp)
  | ok source =>
    cases hfetch : source.fetch (dictMerge config fetch_kwargs) h with
    | error e' =>
      simp only [_fetch_with_config, hreg, hfetch]
      constructor
      · intro he
        have he' : e' = e := by simpa using he
        subst he'
        exact Or.inr ⟨source, rfl, hfetch⟩
      · rintro (he | ⟨source', hs, hf⟩)
        · exact absurd he (by simp)
        · obtain rfl : source' = source := by simpa using hs.symm
          rw [hfetch] at hf
          have he' : e' = e := by simpa using hf
          rw [he']
    | ok pr =>
      obtain ⟨result, h1⟩ := pr
      simp only [_fetch_with_config, hreg, hfetch]
      constructor
      · intro he
        exact absurd he (by simp)
      · rintro (he | ⟨source', hs, hf⟩)
        · exact absurd he (by simp)
        · obtain rfl : source' = source := by simpa using hs.symm
          exact absurd (hfetch ▸ hf) (by simp)

theorem dictKeys_dictSet_toFinset (d : PyDict) (k : String) (v : PyVal) :
    (dictKeys (dictSet d k v)).toFinset = insert k (dictKeys d).toFinset := by
  rw [dictKeys_dictSet]
  by_cases hm : k ∈ dictKeys d
  · simp [hm, Finset.insert_eq_self.2 (List.mem_toFinset.2 hm)]
  · rw [if_neg hm]
    ext x
    simp [or_comm]

theorem dictKeys_buildRow (source_id ts : String) (d : PyDict)
    (hs : "_source_id" ∉ dictKeys d) (hf : "_fetched_at" ∉ dictKeys d) :
    dictKeys (buildRow source_id ts d) = dictKeys d ++ ["_source_id", "_fetched_at"] := by
  have h1 : dictKeys (dictSet d "_source_id" (.str source_id))
      = dictKeys d ++ ["_source_id"] := by
    rw [dictKeys_dictSet, if_neg hs]
  have h2 : "_fetched_at" ∉ dictKeys d ++ ["_source_id"] := by
    simp only [List.mem_append, List.mem_singleton]
    rintro (hmem | heq)
    · exact hf hmem
    · exact absurd heq (by decide)
  rw [buildRow, dictKeys_dictSet, h1, if_neg h2, List.append_assoc]
  rfl

theorem dictKeys_buildRow_toFinset (source_id ts : String) (d : PyDict) :
    (dictKeys (buildRow source_id ts d)).toFinset
      = insert "_fetched_at" (insert "_source_id" (dictKeys d).toFinset) := by
  rw [buildRow, dictKeys_dictSet_toFinset, dictKeys_dictSet_toFinset]

theorem dictLookup_buildRow_source (source_id ts : String) (d : PyDict) :
    dictLookup (buildRow source_id ts d) "_source_id" = some (.str source_id) := by
  rw [buildRow, dictLookup_dictSet_ne _ _ _ _ (by decide), dictLookup_dictSet_self]

theorem dictLookup_buildRow_fetched (source_id ts : String) (d : PyDict) :
    dictLookup (buildRow source_id ts d) "_fetched_at" = some (.str ts) := by
  rw [buildRow, dictLookup_dictSet_self]

theorem resultToDataFrame_nonempty (source_id : String) (clock : Nat → DateTime)
    (result : FetchResult) (h1 : Heap) (t : Nat) (hne : result.records ≠ []) :
    resultToDataFrame source_id clock result h1 t
      = (DataFrame.ofRows ((buildRowsLoop source_id clock result.records h1 t []).2.2.map
            (buildRowsLoop source_id clock result.records h1 t []).1.get),
         (buildRowsLoop source_id clock result.records h1 t []).1,
         (buildRowsLoop source_id clock result.records h1 t []).2.1) := by
  rw [resultToDataFrame, if_neg (by simpa using hne)]

/-- C7: for a non-empty records sequence, the table has one row per record,
in record order (row `i` is record `i`'s fields plus the metadata stamped
with the `i`-th clock reading), and the clock-read counter advances by
exactly one per record. -/
theorem c7_one_row_per_record (registry : Registry) (clock : Nat → DateTime)
    (source_id source_type : String) (config : PyDict) (primary_keys : List String)
    (incremental : Bool) (fetch_kwargs : PyDict) (h : Heap) (t : Nat)
    (source : Source) (result : FetchResult) (h1 : Heap)
    (hreg : registry.create_source
      (_create_source_config source_id source_type config primary_keys incremental) = .ok source)
    (hfetch : source.fetch (dictMerge config fetch_kwargs) h = .ok (result, h1))
    (hne : result.records ≠ [])
    (haddr : ∀ r ∈ result.records, r.data < h1.cells.length) :
    ∃ df h2 t2,
      _fetch_with_config registry clock source_id source_type config primary_keys incremental
          fetch_kwargs h t = .ok (df, h2, t2)
      ∧ df.rows = buildRowsPure source_id clock h1 result.records t
      ∧ df.rows.length = result.records.length
      ∧ t2 = t + result.records.length := by
  obtain ⟨hcnt, hlen, hframe, haddrs, hrows⟩ :=
    buildRowsLoop_spec source_id clock result.records h1 t [] haddr
  have hout : _fetch_with_config registry clock source_id source_type config primary_keys
      incremental fetch_kwargs h t = .ok (resultToDataFrame source_id clock result h1 t) :=
    fetch_with_config_ok registry clock source_id source_type config primary_keys incremental
      fetch_kwargs h t source result h1 hreg hfetch
  rw [resultToDataFrame_nonempty source_id clock result h1 t hne] at hout
  have hrows' : (buildRowsLoop source_id clock result.records h1 t []).2.2.map
      (buildRowsLoop source_id clock result.records h1 t []).1.get
      = buildRowsPure source_id clock h1 result.records t := by
    rw [haddrs, List.nil_append, hrows]
  refine ⟨_, _, _, hout, ?_, ?_, hcnt⟩
  · show ((buildRowsLoop source_id clock result.records h1 t []).2.2.map
      (buildRowsLoop source_id clock result.records h1 t []).1.get) = _
    exact hrows'
  · show ((buildRowsLoop source_id clock result.records h1 t []).2.2.map
      (buildRowsLoop source_id clock result.records h1 t []).1.get).length = _
    rw [hrows', buildRowsPure_length]

/-- C9: the generic fetch path never mutates a record's own data mapping:
after the call each record's dictionary is unchanged (only the fresh row
copies receive the metadata fields). -/
theorem c9_records_unchanged (registry : Registry) (clock : Nat → DateTime)
    (source_id source_type : String) (config : PyDict) (primary_keys : List String)
    (incremental : Bool) (fetch_kwargs : PyDict) (h : Heap) (t : Nat)
    (source : Source) (result : FetchResult) (h1 : Heap)
    (hreg : registry.create_source
      (_create_source_config source_id source_type config primary_keys incremental) = .ok source)
    (hfetch : source.fetch (dictMerge config fetch_kwargs) h = .ok (result, h1))
    (haddr : ∀ r ∈ result.records, r.data < h1.cells.length) :
    ∃ df h2 t2,
      _fetch_with_config registry clock source_id source_type config primary_keys incremental
          fetch_kwargs h t = .ok (df, h2, t2)
      ∧ ∀ r ∈ result.records, h2.get r.data = h1.get r.data := by
  have hout : _fetch_with_config registry clock source_id source_type config primary_keys
      incremental fetch_kwargs h t = .ok (resultToDataFrame source_id clock result h1 t) :=
    fetch_with_config_ok registry clock source_id source_type config primary_keys incremental
      fetch_kwargs h t source result h1 hreg hfetch
  by_cases hne : result.records = []
  · refine ⟨_, _, _, hout, ?_⟩
    intro r hm
    rw [hne] at hm
    simp at hm
  · obtain ⟨hcnt, hlen, hframe, haddrs, hrows⟩ :=
      buildRowsLoop_spec source_id clock result.records h1 t [] haddr
    rw [resultToDataFrame_nonempty source_id clock result h1 t hne] at hout
    refine ⟨_, _, _, hout, ?_⟩
    intro r hm
    exact hframe r.data (haddr r hm)

theorem buildRowsPure_keys_toFinset (source_id : String) (clock : Nat → DateTime) (h : Heap) :
    ∀ (rs : List Record) (t : Nat), rs ≠ [] →
    (∀ r ∈ rs, "_source_id" ∉ dictKeys (h.get r.data)
      ∧ "_fetched_at" ∉ dictKeys (h.get r.data)) →
    ((buildRowsPure source_id clock h rs t).flatMap dictKeys).toFinset
      = insert "_source_id" (insert "_fetched_at"
          ((rs.flatMap (fun r => dictKeys (h.get r.data))).toFinset)) := by
  intro rs
  induction rs with
  | nil => intro t hne _; exact absurd rfl hne
  | cons r rs ih =>
    intro t _ hmeta
    have hr := hmeta r (by simp)
    have hrow := dictKeys_buildRow source_id (clock t).isoformat (h.get r.data) hr.1 hr.2
    cases rs with
    | nil =>
      simp only [buildRowsPure, List.flatMap_cons, List.flatMap_nil, List.append_nil]
      rw [hrow]
      ext x
      simp
      tauto
    | cons r2 rs2 =>
      have hmeta' : ∀ r' ∈ r2 :: rs2, "_source_id" ∉ dictKeys (h.get r'.data)
          ∧ "_fetched_at" ∉ dictKeys (h.get r'.data) :=
        fun r' hm => hmeta r' (by simp [hm])
      have ihh := ih (t + 1) (by simp) hmeta'
      show ((dictKeys (buildRow source_id (clock t).isoformat (h.get r.data))
          ++ (buildRowsPure source_id clock h (r2 :: rs2) (t + 1)).flatMap dictKeys).toFinset) = _
      rw [List.toFinset_append, hrow, ihh]
      ext x
      simp [List.mem_flatMap, or_assoc]
      tauto

/-- C10: if a fetched record's data mapping already carries a `_source_id`
or `_fetched_at` field, the corresponding output row holds the bridge's
metadata values under those names (the record's own value is overwritten)
and the row's field-name set is the record's field names with just the two
metadata names inserted — no distinct extra column is created. -/
theorem c10_collision_overwritten (registry : Registry) (clock : Nat → DateTime)
    (source_id source_type : String) (config : PyDict) (primary_keys : List String)
    (incremental : Bool) (fetch_kwargs : PyDict) (h : Heap) (t : Nat)
    (source : Source) (result : FetchResult) (h1 : Heap) (i : Nat)
    (hreg : registry.create_source
      (_create_source_config source_id source_type config primary_keys incremental) = .ok source)
    (hfetch : source.fetch (dictMerge config fetch_kwargs) h = .ok (result, h1))
    (haddr : ∀ r ∈ result.records, r.data < h1.cells.length)
    (hi : i < result.records.length)
    (hcollide : "_source_id" ∈ dictKeys (h1.get ((result.records.getD i default).data))
      ∨ "_fetched_at" ∈ dictKeys (h1.get ((result.records.getD i default).data))) :
    ∃ df h2 t2,
      _fetch_with_config registry clock source_id source_type config primary_keys incremental
          fetch_kwargs h t = .ok (df, h2, t2)
      ∧ dictLookup (df.rows.getD i []) "_source_id" = some (.str source_id)
      ∧ dictLookup (df.rows.getD i []) "_fetched_at"
          = some (.str (clock (t + i)).isoformat)
      ∧ (dictKeys (df.rows.getD i [])).toFinset
          = insert "_fetched_at" (insert "_source_id"
              (dictKeys (h1.get ((result.records.getD i default).data))).toFinset) := by
  have hne : result.records ≠ [] := by
    intro hE; rw [hE] at hi; simp at hi
  obtain ⟨hcnt, hlen, hframe, haddrs, hrows⟩ :=
    buildRowsLoop_spec source_id clock result.records h1 t [] haddr
  have hout : _fetch_with_config registry clock source_id source_type config primary_keys
      incremental fetch_kwargs h t = .ok (resultToDataFrame source_id clock result h1 t) :=
    fetch_with_config_ok registry clock source_id source_type config primary_keys incremental
      fetch_kwargs h t source result h1 hreg hfetch
  rw [resultToDataFrame_nonempty source_id clock result h1 t hne] at hout
  have hrows' : (buildRowsLoop source_id clock result.records h1 t []).2.2.map
      (buildRowsLoop source_id clock result.records h1 t []).1.get
      = buildRowsPure source_id clock h1 result.records t := by
    rw [haddrs, List.nil_append, hrows]
  refine ⟨_, _, _, hout, ?_, ?_, ?_⟩ <;>
    rw [show (DataFrame.ofRows ((buildRowsLoop source_id clock result.records h1 t []).2.2.map
        (buildRowsLoop source_id clock result.records h1 t []).1.get)).rows
      = buildRowsPure source_id clock h1 result.records t from hrows',
      buildRowsPure_getD source_id clock h1 result.records t i hi]
  · exact dictLookup_buildRow_source source_id _ _
  · exact dictLookup_buildRow_fetched source_id _ _
  · exact dictKeys_buildRow_toFinset source_id _ _

/-- C2 (amended): for a non-empty records result none of whose records
already uses the metadata field names, the table has exactly two more
columns than the union of the records' field names, and in every row the
two added fields hold the supplied source identifier and a syntactically
valid UTC timestamp string. -/
theorem c2_metadata_columns (registry : Registry) (clock : Nat → DateTime)
    (source_id source_type : String) (config : PyDict) (primary_keys : List String)
    (incremental : Bool) (fetch_kwargs : PyDict) (h : Heap) (t : Nat)
    (source : Source) (result : FetchResult) (h1 : Heap)
    (hclock : ∀ n, (clock n).Valid)
    (hreg : registry.create_source
      (_create_source_config source_id source_type config primary_keys incremental) = .ok source)
    (hfetch : source.fetch (dictMerge config fetch_kwargs) h = .ok (result, h1))
    (hne : result.records ≠ [])
    (haddr : ∀ r ∈ result.records, r.data < h1.cells.length)
    (hmeta : ∀ r ∈ result.records, "_source_id" ∉ dictKeys (h1.get r.data)
      ∧ "_fetched_at" ∉ dictKeys (h1.get r.data)) :
    ∃ df h2 t2,
      _fetch_with_config registry clock source_id source_type config primary_keys incremental
          fetch_kwargs h t = .ok (df, h2, t2)
      ∧ df.columns.length
          = ((result.records.flatMap (fun r => dictKeys (h1.get r.data))).toFinset).card + 2
      ∧ ∀ i, i < df.rows.length →
          dictLookup (df.rows.getD i []) "_source_id" = some (.str source_id)
          ∧ dictLookup (df.rows.getD i []) "_fetched_at"
              = some (.str (clock (t + i)).isoformat)
          ∧ validUTCTimestamp (clock (t + i)).isoformat = true := by
  obtain ⟨hcnt, hlen, hframe, haddrs, hrows⟩ :=
    buildRowsLoop_spec source_id clock result.records h1 t [] haddr
  have hout : _fetch_with_config registry clock source_id source_type config primary_keys
      incremental fetch_kwargs h t = .ok (resultToDataFrame source_id clock result h1 t) :=
    fetch_with_config_ok registry clock source_id source_type config primary_keys incremental
      fetch_kwargs h t source result h1 hreg hfetch
  rw [resultToDataFrame_nonempty source_id clock result h1 t hne] at hout
  have hrows' : (buildRowsLoop source_id clock result.records h1 t []).2.2.map
      (buildRowsLoop source_id clock result.records h1 t []).1.get
      = buildRowsPure source_id clock h1 result.records t := by
    rw [haddrs, List.nil_append, hrows]
  have hU := buildRowsPure_keys_toFinset source_id clock h1 result.records t hne hmeta
  refine ⟨_, _, _, hout, ?_, ?_⟩
  · show ((((buildRowsLoop source_id clock result.records h1 t []).2.2.map
        (buildRowsLoop source_id clock result.records h1 t []).1.get).flatMap
          dictKeys).dedup).length = _
    rw [← List.card_toFinset, hrows', hU]
    have hsU : "_source_id"
        ∉ ((result.records.flatMap (fun r => dictKeys (h1.get r.data))).toFinset) := by
      rw [List.mem_toFinset, List.mem_flatMap]
      rintro ⟨r, hm, hk⟩
      exact (hmeta r hm).1 hk
    have hfU : "_fetched_at"
        ∉ ((result.records.flatMap (fun r => dictKeys (h1.get r.data))).toFinset) := by
      rw [List.mem_toFinset, List.mem_flatMap]
      rintro ⟨r, hm, hk⟩
      exact (hmeta r hm).2 hk
    rw [Finset.card_insert_of_not_mem (by
        rw [Finset.mem_insert]
        rintro (hx | hx)
        · exact absurd hx (by decide)
        · exact hsU hx),
      Finset.card_insert_of_not_mem hfU]
  · intro i hi
    simp only [DataFrame.ofRows] at hi ⊢
    rw [hrows'] at hi ⊢
    rw [buildRowsPure_length] at hi
    rw [buildRowsPure_getD source_id clock h1 result.records t i hi]
    exact ⟨dictLookup_buildRow_source source_id _ _,
      dictLookup_buildRow_fetched source_id _ _,
      isoformat_validUTCTimestamp _⟩

/-- C2 counterexample: a fetched record whose data already contains a
`_source_id` field.  The call succeeds, but the table has three columns
while the union of the record's field names has two members: the column
count is the union plus one, not plus two, because the colliding name is
overwritten instead of contributing a fresh column. -/
theorem c2_counterexample :
    _fetch_with_config wRegistryOne wClock "s1" "yfinance" [] [] false [] cHeap 0
      = .ok (DataFrame.ofRows [[("a", PyVal.int 1), ("_source_id", PyVal.str "s1"),
          ("_fetched_at", PyVal.str (wClock 0).isoformat)]],
        ⟨[[("a", PyVal.int 1), ("_source_id", PyVal.str "old")],
          [("a", PyVal.int 1), ("_source_id", PyVal.str "s1"),
           ("_fetched_at", PyVal.str (wClock 0).isoformat)]]⟩, 1)
    ∧ (DataFrame.ofRows [[("a", PyVal.int 1), ("_source_id", PyVal.str "s1"),
        ("_fetched_at", PyVal.str (wClock 0).isoformat)]]).columns.length = 3
    ∧ ((([(⟨0⟩ : Record)]).flatMap (fun r => dictKeys (cHeap.get r.data))).toFinset).card = 2
    ∧ (DataFrame.ofRows [[("a", PyVal.int 1), ("_source_id", PyVal.str "s1"),
        ("_fetched_at", PyVal.str (wClock 0).isoformat)]]).columns.length
      ≠ ((([(⟨0⟩ : Record)]).flatMap (fun r => dictKeys (cHeap.get r.data))).toFinset).card
        + 2 :=
  ⟨rfl, rfl, by decide, by decide⟩

theorem c2_witness :
    ∃ df h2 t2,
      _fetch_with_config wRegistryOne wClock "w2" "yfinance" [] [] false [] wHeapOne 0
        = .ok (df, h2, t2)
      ∧ df.columns.length
          = ((([⟨0⟩] : List Record).flatMap
              (fun r => dictKeys (wHeapOne.get r.data))).toFinset).card + 2
      ∧ ∀ i, i < df.rows.length →
          dictLookup (df.rows.getD i []) "_source_id" = some (.str "w2")
          ∧ dictLookup (df.rows.getD i []) "_fetched_at"
              = some (.str (wClock (0 + i)).isoformat)
          ∧ validUTCTimestamp (wClock (0 + i)).isoformat = true :=
  c2_metadata_columns wRegistryOne wClock "w2" "yfinance" [] [] false [] wHeapOne 0
    wSourceOne ⟨[⟨0⟩]⟩ wHeapOne (fun _ => (by decide : DateTime.Valid ⟨2024, 1, 2, 3, 4, 5, 6⟩))
    rfl rfl (by decide) (by decide) (by decide)

theorem c7_witness :
    ∃ df h2 t2,
      _fetch_with_config wRegistryOne wClock "w7" "fred" [] [] false [] wHeapOne 0
        = .ok (df, h2, t2)
      ∧ df.rows = buildRowsPure "w7" wClock wHeapOne [⟨0⟩] 0
      ∧ df.rows.length = 1
      ∧ t2 = 0 + 1 :=
  c7_one_row_per_record wRegistryOne wClock "w7" "fred" [] [] false [] wHeapOne 0
    wSourceOne ⟨[⟨0⟩]⟩ wHeapOne rfl rfl (by decide) (by decide)

theorem c9_witness :
    ∃ df h2 t2,
      _fetch_with_config wRegistryOne wClock "w9" "bls" [] [] false [] wHeapOne 0
        = .ok (df, h2, t2)
      ∧ ∀ r ∈ ([⟨0⟩] : List Record), h2.get r.data = wHeapOne.get r.data :=
  c9_records_unchanged wRegistryOne wClock "w9" "bls" [] [] false [] wHeapOne 0
    wSourceOne ⟨[⟨0⟩]⟩ wHeapOne rfl rfl (by decide)

theorem c10_witness :
    ∃ df h2 t2,
      _fetch_with_config wRegistryOne wClock "w10" "rss" [] [] false [] cHeap 0
        = .ok (df, h2, t2)
      ∧ dictLookup (df.rows.getD 0 []) "_source_id" = some (.str "w10")
      ∧ dictLookup (df.rows.getD 0 []) "_fetched_at"
          = some (.str (wClock (0 + 0)).isoformat)
      ∧ (dictKeys (df.rows.getD 0 [])).toFinset
          = insert "_fetched_at" (insert "_source_id"
              (dictKeys (cHeap.get ((([⟨0⟩] : List Record).getD 0 default).data))).toFinset) :=
  c10_collision_overwritten wRegistryOne wClock "w10" "rss" [] [] false [] cHeap 0
    wSourceOne ⟨[⟨0⟩]⟩ cHeap 0 rfl rfl (by decide) (by decide) (by decide)

theorem mem_partials_iff (x : ℚ) :
    x ∈ partials ↔ ∃ p : ℕ, 1 ≤ p ∧ p ≤ 30 ∧ x = (p : ℚ) := by
  simp only [partials, List.mem_map, List.mem_range]
  constructor
  · rintro ⟨i, hi, rfl⟩
    exact ⟨i + 1, by omega, by omega, by push_cast; ring⟩
  · rintro ⟨p, hp1, hp2, rfl⟩
    refine ⟨p - 1, by omega, ?_⟩
    rw [Nat.cast_sub hp1]
    push_cast
    ring

/-- C8: for each of the four fixed interval multipliers, the differences
handed to the density estimator are exactly the pairwise absolute
differences over partials 1..30 (first set times 1, second times the
multiplier) that do not exceed the 200 Hz cutoff, and the plotted curve is
the density estimate scaled by the count of retained differences. -/
theorem c8_interaction_density (name : String) (mult : ℚ) (color : String)
    (hmem : (name, mult, color) ∈ intervals_display) :
    (∀ d : ℚ, d ∈ delta_vals mult
      ↔ (d ≤ 200 ∧ ∃ p q : ℕ, 1 ≤ p ∧ p ≤ 30 ∧ 1 ≤ q ∧ q ≤ 30
          ∧ d = |(p : ℚ) * f0 - (q : ℚ) * f0 * mult|))
    ∧ (∀ kdefun : ℚ → ℚ, ∀ x : ℚ,
        interaction_density kdefun mult x
          = kdefun x
            * (((delta_vals_all mult).filter (fun v => decide (v ≤ 200))).length : ℚ)) := by
  constructor
  · intro d
    constructor
    · intro hd
      rw [delta_vals, List.mem_filter] at hd
      obtain ⟨hall, hle⟩ := hd
      rw [delta_vals_all, List.mem_flatMap] at hall
      obtain ⟨p, hp, hall⟩ := hall
      rw [List.mem_map] at hall
      obtain ⟨q, hq, hd'⟩ := hall
      subst hd'
      rw [mem_partials_iff] at hp hq
      obtain ⟨pn, hp1, hp2, rfl⟩ := hp
      obtain ⟨qn, hq1, hq2, rfl⟩ := hq
      exact ⟨by simpa using hle, pn, qn, hp1, hp2, hq1, hq2, rfl⟩
    · rintro ⟨hle, p, q, hp1, hp2, hq1, hq2, rfl⟩
      rw [delta_vals, List.mem_filter]
      refine ⟨?_, by simpa using hle⟩
      rw [delta_vals_all, List.mem_flatMap]
      refine ⟨(p : ℚ), (mem_partials_iff _).2 ⟨p, hp1, hp2, rfl⟩, ?_⟩
      rw [List.mem_map]
      exact ⟨(q : ℚ), (mem_partials_iff _).2 ⟨q, hq1, hq2, rfl⟩, rfl⟩
  · intro kdefun x
    rfl

theorem c8_witness :
    (200 : ℚ) ∈ delta_vals 2
      ↔ ((200 : ℚ) ≤ 200 ∧ ∃ p q : ℕ, 1 ≤ p ∧ p ≤ 30 ∧ 1 ≤ q ∧ q ≤ 30
          ∧ (200 : ℚ) = |(p : ℚ) * f0 - (q : ℚ) * f0 * 2|) :=
  (c8_interaction_density "Octave (2:1)" 2 "#64b5f6" (by decide)).1 200
